import Mathlib

/-!
Verification development for the parking-space occupancy detector
(`src/parking_detector.py`).

The Python program is shallowly embedded here:

* real-valued quantities (timestamps from `time.time()`, overlap ratios,
  pixel coordinates, thresholds) are modelled as rationals `ℚ`;
* the per-slot tracking dictionaries (`uncertainty_tracking`,
  `free_time_tracking`, `occupied_time_tracking`, `detection_history`) are
  modelled per slot index as `Option`-valued fields (`none` = the index is
  absent from the dictionary), and in the mouse-handler state as
  association lists from slot index to record;
* the body of the per-slot loop of `check_parking_spaces`
  (lines 313-398) becomes `checkSpace`, the inner best-overlap detection
  loop (lines 287-311) becomes `best_overlap`, the flicker filter
  `check_frequent_detections` (lines 169-189) keeps its name, and the
  mouse callback `draw_parking_space` (lines 212-260) keeps its name;
* `cv2.intersectConvexConvex` is an external geometry routine; it is kept
  abstract as a parameter `inter : List (ℚ × ℚ) → Detection → Option ℚ`
  (`none` models the `except: continue` path);
* `cv2.contourArea` is modelled by its documented meaning, the absolute
  shoelace area of the point sequence.
-/

/-- A detection box `[x1, y1, x2, y2, conf, cls]` as produced by the
detector (`cls` is used through `int(cls)`, so it is an integer here). -/
structure Detection where
  x1 : ℚ
  y1 : ℚ
  x2 : ℚ
  y2 : ℚ
  conf : ℚ
  cls : ℤ
deriving DecidableEq, Repr

/-- One entry of `uncertainty_tracking`
(`{'start_time': ..., 'last_area': ..., 'object_class': ...}`). -/
structure OverlapRecord where
  start_time : ℚ
  last_area : ℚ
  object_class : Option ℤ
deriving DecidableEq, Repr

/-- One entry of `free_time_tracking` or `occupied_time_tracking`: both
dictionaries store `{'*_start_time': ..., 'total_*_time': ...}` with the
same shape and update discipline. -/
structure TimeRecord where
  start_time : ℚ
  total_time : ℚ
deriving DecidableEq, Repr

/-- The classification strings returned by `check_parking_spaces`. -/
inductive SpaceState where
  | occupied
  | uncertain
  | uncertain_occupied
  | frequent_detection
  | free
deriving DecidableEq, Repr

/-- The tracking state attached to a single slot index: the entry of each
of the four global dictionaries at that index (`none` / `[]` when the key
is absent). -/
structure SlotTracking where
  uncertainty_tracking : Option OverlapRecord
  free_time_tracking : Option TimeRecord
  occupied_time_tracking : Option TimeRecord
  detection_history : Option (List ℚ)
deriving DecidableEq, Repr

/-- The configuration parameters threaded through `check_parking_spaces`. -/
structure Params where
  threshold : ℚ
  uncertainty_threshold : ℚ
  uncertainty_time_threshold : ℚ
  frequent_detection_threshold : ℕ
  frequent_detection_window : ℚ
deriving DecidableEq, Repr

/-- `check_frequent_detections` (lines 169-189): initialise the history
list if the key is absent, append `current_time`, keep only entries
strictly newer than `current_time - window`, and report whether at least
`threshold` entries remain.  Returns the flag together with the new
history list that is stored back into `detection_history`. -/
def check_frequent_detections (history : Option (List ℚ)) (current_time : ℚ)
    (threshold : ℕ) (window : ℚ) : Bool × List ℚ :=
  let h := history.getD []
  let h := h ++ [current_time]
  let cutoff_time := current_time - window
  let h := h.filter (fun t => cutoff_time < t)
  (decide (threshold ≤ h.length), h)

/-- The shared accrual step for `free_time_tracking` and
`occupied_time_tracking` (lines 327-338 and 387-398): open a record
`{start: now, total: 0}` when the key is absent, otherwise add
`now - start` to the total and reset `start := now`. -/
def accrueTime (rec : Option TimeRecord) (current_time : ℚ) : TimeRecord :=
  match rec with
  | none => { start_time := current_time, total_time := 0 }
  | some r =>
      { start_time := current_time
        total_time := r.total_time + (current_time - r.start_time) }

/-- The body of the per-slot loop of `check_parking_spaces`
(lines 313-398), acting on the tracking state of one slot index given the
best overlap ratio and best object class computed by the detection loop:

* `max_overlap_ratio ≥ threshold`: state `occupied`; delete the
  uncertainty record, free-time record and detection history; accrue the
  occupied-time record;
* `max_overlap_ratio ≥ uncertainty_threshold`: run
  `check_frequent_detections` first with this frame's timestamp; open the
  uncertainty record (state `uncertain`) or update it and compare the
  dwell time against `uncertainty_time_threshold`
  (state `uncertain_occupied` / `uncertain`); override the state with
  `frequent_detection` when the filter fired; delete the free-time and
  occupied-time records;
* otherwise: state `free`; delete the uncertainty record, occupied-time
  record and detection history; accrue the free-time record. -/
def checkSpace (P : Params) (trk : SlotTracking) (max_overlap_ratio : ℚ)
    (best_object_class : Option ℤ) (current_time : ℚ) :
    SpaceState × SlotTracking :=
  if P.threshold ≤ max_overlap_ratio then
    (SpaceState.occupied,
      { uncertainty_tracking := none
        free_time_tracking := none
        occupied_time_tracking :=
          some (accrueTime trk.occupied_time_tracking current_time)
        detection_history := none })
  else if P.uncertainty_threshold ≤ max_overlap_ratio then
    let fd := check_frequent_detections trk.detection_history current_time
      P.frequent_detection_threshold P.frequent_detection_window
    let su : SpaceState × OverlapRecord :=
      match trk.uncertainty_tracking with
      | none =>
          (SpaceState.uncertain,
            { start_time := current_time
              last_area := max_overlap_ratio
              object_class := best_object_class })
      | some r =>
          (if P.uncertainty_time_threshold ≤ current_time - r.start_time
            then SpaceState.uncertain_occupied else SpaceState.uncertain,
            { r with last_area := max_overlap_ratio
                     object_class := best_object_class })
    ((if fd.1 then SpaceState.frequent_detection else su.1),
      { uncertainty_tracking := some su.2
        free_time_tracking := none
        occupied_time_tracking := none
        detection_history := some fd.2 })
  else
    (SpaceState.free,
      { uncertainty_tracking := none
        free_time_tracking :=
          some (accrueTime trk.free_time_tracking current_time)
        occupied_time_tracking := none
        detection_history := none })

/-- One frame of input for a single slot: the frame timestamp and the
`(max_overlap_ratio, best_object_class)` pair the detection loop produced
for that slot. -/
structure Frame where
  time : ℚ
  ratio : ℚ
  cls : Option ℤ
deriving DecidableEq, Repr

/-- Iterate `checkSpace` over a sequence of frames, collecting the
classification of each frame and the final tracking state. -/
def runSlot (P : Params) (trk : SlotTracking) : List Frame →
    List SpaceState × SlotTracking
  | [] => ([], trk)
  | f :: rest =>
      let r := checkSpace P trk f.ratio f.cls f.time
      let rs := runSlot P r.2 rest
      (r.1 :: rs.1, rs.2)

/-- The tracking state of a slot index that appears in none of the four
dictionaries. -/
def emptyTracking : SlotTracking :=
  { uncertainty_tracking := none
    free_time_tracking := none
    occupied_time_tracking := none
    detection_history := none }

/-- The configuration defaults of the program (lines 69-78 / 152-160). -/
def defaultParams : Params :=
  { threshold := 0.6
    uncertainty_threshold := 0.3
    uncertainty_time_threshold := 3
    frequent_detection_threshold := 10
    frequent_detection_window := 10 }

/-- The list of directed edges of a polygon, with wrap-around: the Python
loops pair `polygon[i-1]` with `polygon[i % n]` for `i = 1, ..., n`. -/
def polygonEdges (polygon : List (ℚ × ℚ)) : List ((ℚ × ℚ) × (ℚ × ℚ)) :=
  polygon.zip (polygon.drop 1 ++ polygon.take 1)

/-- `cv2.contourArea` on the slot's point sequence: the absolute shoelace
area `|Σ (xᵢ * yᵢ₊₁ - xᵢ₊₁ * yᵢ)| / 2` (modelled from the routine's
documented Green-formula meaning; it is external to the repository). -/
def contourArea (polygon : List (ℚ × ℚ)) : ℚ :=
  |((polygonEdges polygon).map
      (fun e => e.1.1 * e.2.2 - e.2.1 * e.1.2)).sum| / 2

/-- The per-detection outcome inside the loop of `check_parking_spaces`
(lines 291-311): `none` when the box is filtered out
(`not universal_detection and int(cls) not in tracked_objects`) or the
intersection routine fails (the `except: continue` path); otherwise the
overlap ratio `overlap / space_area if space_area > 0 else 0`. -/
def ratioOf (inter : List (ℚ × ℚ) → Detection → Option ℚ)
    (space : List (ℚ × ℚ)) (tracked_objects : List ℤ)
    (universal_detection : Bool) (det : Detection) : Option ℚ :=
  if ¬ universal_detection ∧ det.cls ∉ tracked_objects then none
  else
    (inter space det).map
      (fun overlap =>
        if 0 < contourArea space then overlap / contourArea space else 0)

/-- The accumulator update of the detection loop: replace the running
best `(max_overlap_ratio, best_object_class)` only on a strictly larger
ratio (`if overlap_ratio > max_overlap_ratio`). -/
def bestStep (inter : List (ℚ × ℚ) → Detection → Option ℚ)
    (space : List (ℚ × ℚ)) (tracked_objects : List ℤ)
    (universal_detection : Bool) (acc : ℚ × Option ℤ) (det : Detection) :
    ℚ × Option ℤ :=
  match ratioOf inter space tracked_objects universal_detection det with
  | none => acc
  | some overlap_ratio =>
      if acc.1 < overlap_ratio then (overlap_ratio, some det.cls) else acc

/-- The detection loop of `check_parking_spaces` (lines 287-311): fold
`bestStep` over the detections starting from
`max_overlap_ratio = 0.0`, `best_object_class = None`. -/
def best_overlap (inter : List (ℚ × ℚ) → Detection → Option ℚ)
    (space : List (ℚ × ℚ)) (detections : List Detection)
    (tracked_objects : List ℤ) (universal_detection : Bool) :
    ℚ × Option ℤ :=
  detections.foldl (bestStep inter space tracked_objects universal_detection)
    (0, none)

/-- One edge step of `point_in_polygon` (lines 198-208).  Under the guard
`min p1y p2y < y ≤ max p1y p2y` the source's `p1y != p2y` test always
holds (otherwise `min = max` contradicts the guard), so the crossing
abscissa `xinters` is computed directly; `ℚ` division is total, and the
`p1y = p2y` case of the division is unreachable. -/
def pipStep (x y : ℚ) (inside : Bool) (e : (ℚ × ℚ) × (ℚ × ℚ)) : Bool :=
  let p1 := e.1
  let p2 := e.2
  if min p1.2 p2.2 < y ∧ y ≤ max p1.2 p2.2 ∧ x ≤ max p1.1 p2.1 then
    if p1.1 = p2.1 ∨ x ≤ (y - p1.2) * (p2.1 - p1.1) / (p2.2 - p1.2) + p1.1
      then !inside else inside
  else inside

/-- `point_in_polygon` (lines 192-209): horizontal-ray crossing test,
folding `pipStep` over the polygon's edges starting from
`inside = False`. -/
def point_in_polygon (point : ℚ × ℚ) (polygon : List (ℚ × ℚ)) : Bool :=
  (polygonEdges polygon).foldl (pipStep point.1 point.2) false

/-- The selection test of the delete- and edit-mode loops
(`len(space) == 4 and point_in_polygon((x, y), space)`). -/
def spaceHit (point : ℚ × ℚ) (space : List (ℚ × ℚ)) : Bool :=
  space.length == 4 && point_in_polygon point space

/-- The containment test of the debug branch
(`x1 <= x <= x2 and y1 <= y <= y2`). -/
def boxContains (det : Detection) (point : ℚ × ℚ) : Bool :=
  decide (det.x1 ≤ point.1 ∧ point.1 ≤ det.x2 ∧
          det.y1 ≤ point.2 ∧ point.2 ≤ det.y2)

/-- The global mutable state read and written by the mouse callback
`draw_parking_space`: the mode flags, the slot list, the pending point
sequence, the edit selection (`editing_space_index`, with the `-1`
sentinel modelled as `none`), the tracked-class list, and the four
index-keyed tracking dictionaries (as association lists). -/
structure MouseState where
  debug_mode : Bool
  edit_mode : Bool
  delete_mode : Bool
  tracked_objects : List ℤ
  parking_spaces : List (List (ℚ × ℚ))
  current_parking_space : List (ℚ × ℚ)
  editing_space_index : Option ℕ
  uncertainty_tracking : List (ℕ × OverlapRecord)
  free_time_tracking : List (ℕ × TimeRecord)
  occupied_time_tracking : List (ℕ × TimeRecord)
  detection_history : List (ℕ × List ℚ)
deriving DecidableEq, Repr

/-- `draw_parking_space` (lines 212-260) on a left-button-down event at
`point`, with the current detections passed through `param`:

* debug mode: append the class of every detection box containing the
  click point to `tracked_objects`;
* delete mode: remove the first slot with 4 points whose polygon
  contains the point (the loop breaks after the first `del`);
* edit mode, no selection: select the first slot whose polygon contains
  the point and copy its points into `current_parking_space`;
* edit mode, selection active: append the point only while fewer than 4
  points are pending, then, at exactly 4 pending points, overwrite the
  selected slot and clear the pending sequence and the selection;
* normal mode: append the point while fewer than 4 are pending; at 4,
  append the pending sequence as a new slot and reset it. -/
def draw_parking_space (s : MouseState) (point : ℚ × ℚ)
    (detections : List Detection) : MouseState :=
  if s.debug_mode then
    { s with tracked_objects := s.tracked_objects ++
        ((detections.filter (fun det => boxContains det point)).map
          Detection.cls) }
  else if s.delete_mode then
    match s.parking_spaces.findIdx? (spaceHit point) with
    | some i => { s with parking_spaces := s.parking_spaces.eraseIdx i }
    | none => s
  else if s.edit_mode then
    match s.editing_space_index with
    | none =>
        match s.parking_spaces.findIdx? (spaceHit point) with
        | some i =>
            { s with editing_space_index := some i
                     current_parking_space := s.parking_spaces.getD i [] }
        | none => s
    | some j =>
        let cur := if s.current_parking_space.length < 4
          then s.current_parking_space ++ [point]
          else s.current_parking_space
        if cur.length = 4 then
          { s with parking_spaces := s.parking_spaces.set j cur
                   current_parking_space := []
                   editing_space_index := none }
        else { s with current_parking_space := cur }
  else
    let cur := if s.current_parking_space.length < 4
      then s.current_parking_space ++ [point]
      else s.current_parking_space
    if cur.length = 4 then
      { s with parking_spaces := s.parking_spaces ++ [cur]
               current_parking_space := [] }
    else { s with current_parking_space := cur }

/-- A sequence of left clicks fed to `draw_parking_space` with no
detections on screen. -/
def clicks (s : MouseState) (points : List (ℚ × ℚ)) : MouseState :=
  points.foldl (fun st p => draw_parking_space st p []) s

/-- Concrete axis-aligned square slots used to instantiate theorems. -/
def sqA : List (ℚ × ℚ) := [(0, 0), (10, 0), (10, 10), (0, 10)]

/-- Second concrete square slot, disjoint from `sqA`. -/
def sqB : List (ℚ × ℚ) := [(20, 0), (30, 0), (30, 10), (20, 10)]

/-- Third concrete square slot, disjoint from the other two. -/
def sqC : List (ℚ × ℚ) := [(40, 0), (50, 0), (50, 10), (40, 10)]

/-- A concrete intersection oracle: every box overlaps every polygon on
area 50 (used to instantiate theorems about `best_overlap`). -/
def interW : List (ℚ × ℚ) → Detection → Option ℚ := fun _ _ => some 50

/-- A concrete intersection oracle reporting full containment: the
intersection is the whole polygon area. -/
def interFull : List (ℚ × ℚ) → Detection → Option ℚ :=
  fun polygon _ => some (contourArea polygon)

/-- A concrete detection box. -/
def detW : Detection :=
  { x1 := 0, y1 := 0, x2 := 10, y2 := 10, conf := 9/10, cls := 5 }

/-- A mouse-handler state in delete mode holding the three squares. -/
def msDelete : MouseState :=
  { debug_mode := false
    edit_mode := false
    delete_mode := true
    tracked_objects := [2, 67]
    parking_spaces := [sqA, sqB, sqC]
    current_parking_space := []
    editing_space_index := none
    uncertainty_tracking := []
    free_time_tracking := [(0, { start_time := 0, total_time := 1 })]
    occupied_time_tracking := [(1, { start_time := 2, total_time := 3 })]
    detection_history := [(2, [5])] }

/-- A mouse-handler state in edit mode holding one square and no
selection. -/
def msEdit : MouseState :=
  { msDelete with
      edit_mode := true
      delete_mode := false
      parking_spaces := [sqA] }

/-- A mouse-handler state in normal (create) mode holding one square and
an empty pending sequence. -/
def msCreate : MouseState :=
  { msDelete with
      delete_mode := false
      parking_spaces := [sqA] }

/-- A tracking state whose occupied-time record was just opened at
time 0. -/
def trkOccW : SlotTracking :=
  { emptyTracking with
      occupied_time_tracking := some { start_time := 0, total_time := 0 } }

/-- A tracking state whose free-time record was just opened at time 0. -/
def trkFreeW : SlotTracking :=
  { emptyTracking with
      free_time_tracking := some { start_time := 0, total_time := 0 } }

/-- The frame sequence of the dwell-time scenario: overlap ratios
0.1, 0.4, 0.4, 0.4, 0.4 at one-second intervals. -/
def c1Frames : List Frame :=
  [{ time := 0, ratio := 1/10, cls := none },
   { time := 1, ratio := 4/10, cls := none },
   { time := 2, ratio := 4/10, cls := none },
   { time := 3, ratio := 4/10, cls := none },
   { time := 4, ratio := 4/10, cls := none }]

/-- The frame sequence of the flicker scenario: ten consecutive frames at
one-second intervals, every overlap ratio 0.4. -/
def c5Frames : List Frame :=
  [{ time := 0, ratio := 4/10, cls := none },
   { time := 1, ratio := 4/10, cls := none },
   { time := 2, ratio := 4/10, cls := none },
   { time := 3, ratio := 4/10, cls := none },
   { time := 4, ratio := 4/10, cls := none },
   { time := 5, ratio := 4/10, cls := none },
   { time := 6, ratio := 4/10, cls := none },
   { time := 7, ratio := 4/10, cls := none },
   { time := 8, ratio := 4/10, cls := none },
   { time := 9, ratio := 4/10, cls := none }]

/-- A single occupied-band frame at time 1. -/
def occFramesW : List Frame := [{ time := 1, ratio := 7/10, cls := none }]

/-- A single free-band frame at time 1. -/
def freeFramesW : List Frame := [{ time := 1, ratio := 1/10, cls := none }]

/-- `check_frequent_detections` as the claim words it: an entry is
discarded only when it is strictly older than `current_time - window`
(the source instead keeps only entries strictly newer than the cutoff, so
an entry exactly `window` old is also discarded).  Written from the
claim's words for comparison with the source translation. -/
def check_frequent_detections_claimed (history : Option (List ℚ))
    (current_time : ℚ) (threshold : ℕ) (window : ℚ) : Bool × List ℚ :=
  let h := history.getD []
  let h := h ++ [current_time]
  let cutoff_time := current_time - window
  let h := h.filter (fun t => ¬ t < cutoff_time)
  (decide (threshold ≤ h.length), h)

section BestOverlapLemmas

variable (inter : List (ℚ × ℚ) → Detection → Option ℚ)
variable (space : List (ℚ × ℚ))
variable (tracked_objects : List ℤ)
variable (universal_detection : Bool)

lemma bestStep_fst_le (acc : ℚ × Option ℤ) (det : Detection) :
    acc.1 ≤ (bestStep inter space tracked_objects universal_detection acc det).1 := by
  cases h : ratioOf inter space tracked_objects universal_detection det with
  | none => simp [bestStep, h]
  | some r =>
      simp only [bestStep, h]
      split
      · next hlt => exact le_of_lt hlt
      · exact le_refl _

lemma foldl_bestStep_fst_le :
    ∀ (l : List Detection) (acc : ℚ × Option ℤ),
    acc.1 ≤ (l.foldl (bestStep inter space tracked_objects universal_detection) acc).1 := by
  intro l
  induction l with
  | nil => intro acc; exact le_refl _
  | cons d l ih =>
      intro acc
      rw [List.foldl_cons]
      exact le_trans (bestStep_fst_le inter space tracked_objects universal_detection acc d)
        (ih _)

lemma foldl_bestStep_le (b : ℚ) :
    ∀ (l : List Detection) (acc : ℚ × Option ℤ), acc.1 ≤ b →
    (∀ d ∈ l, ∀ r, ratioOf inter space tracked_objects universal_detection d = some r → r ≤ b) →
    (l.foldl (bestStep inter space tracked_objects universal_detection) acc).1 ≤ b := by
  intro l
  induction l with
  | nil => intro acc hacc _; exact hacc
  | cons d l ih =>
      intro acc hacc hl
      rw [List.foldl_cons]
      refine ih _ ?_ (fun d' hd' r' h' => hl d' (List.mem_cons_of_mem d hd') r' h')
      cases h : ratioOf inter space tracked_objects universal_detection d with
      | none => simpa [bestStep, h] using hacc
      | some r =>
          simp only [bestStep, h]
          split
          · exact hl d (List.mem_cons_self d l) r h
          · exact hacc

lemma foldl_bestStep_lt (b : ℚ) :
    ∀ (l : List Detection) (acc : ℚ × Option ℤ), acc.1 < b →
    (∀ d ∈ l, ∀ r, ratioOf inter space tracked_objects universal_detection d = some r → r < b) →
    (l.foldl (bestStep inter space tracked_objects universal_detection) acc).1 < b := by
  intro l
  induction l with
  | nil => intro acc hacc _; exact hacc
  | cons d l ih =>
      intro acc hacc hl
      rw [List.foldl_cons]
      refine ih _ ?_ (fun d' hd' r' h' => hl d' (List.mem_cons_of_mem d hd') r' h')
      cases h : ratioOf inter space tracked_objects universal_detection d with
      | none => simpa [bestStep, h] using hacc
      | some r =>
          simp only [bestStep, h]
          split
          · exact hl d (List.mem_cons_self d l) r h
          · exact hacc

lemma foldl_bestStep_const :
    ∀ (l : List Detection) (acc : ℚ × Option ℤ),
    (∀ d ∈ l, ∀ r, ratioOf inter space tracked_objects universal_detection d = some r → r ≤ acc.1) →
    l.foldl (bestStep inter space tracked_objects universal_detection) acc = acc := by
  intro l
  induction l with
  | nil => intro acc _; rfl
  | cons d l ih =>
      intro acc h
      have hstep : bestStep inter space tracked_objects universal_detection acc d = acc := by
        cases hr : ratioOf inter space tracked_objects universal_detection d with
        | none => simp [bestStep, hr]
        | some r =>
            simp only [bestStep, hr]
            rw [if_neg (not_lt.mpr (h d (List.mem_cons_self d l) r hr))]
      rw [List.foldl_cons, hstep]
      exact ih acc (fun d' hd' => h d' (List.mem_cons_of_mem d hd'))

lemma ratio_le_foldl_bestStep :
    ∀ (l : List Detection) (acc : ℚ × Option ℤ) (d : Detection) (r : ℚ),
    d ∈ l → ratioOf inter space tracked_objects universal_detection d = some r →
    r ≤ (l.foldl (bestStep inter space tracked_objects universal_detection) acc).1 := by
  intro l
  induction l with
  | nil => intro acc d r hd _; exact absurd hd (List.not_mem_nil d)
  | cons e l ih =>
      intro acc d r hd hr
      rw [List.foldl_cons]
      rcases List.mem_cons.mp hd with heq | hmem
      · subst heq
        refine le_trans ?_ (foldl_bestStep_fst_le inter space tracked_objects universal_detection l _)
        simp only [bestStep, hr]
        split
        · exact le_refl _
        · next hnlt => exact not_lt.mp hnlt
      · exact ih _ d r hmem hr

lemma ratioOf_bounds
    (hinter : ∀ det a, inter space det = some a → 0 ≤ a ∧ a ≤ contourArea space)
    (det : Detection) (r : ℚ)
    (h : ratioOf inter space tracked_objects universal_detection det = some r) :
    0 ≤ r ∧ r ≤ 1 := by
  unfold ratioOf at h
  split at h
  · exact absurd h (by simp)
  · cases hin : inter space det with
    | none => rw [hin] at h; exact absurd h (by simp)
    | some a =>
        rw [hin] at h
        simp only [Option.map_some'] at h
        obtain ⟨ha0, ha1⟩ := hinter det a hin
        have h' := Option.some.inj h
        by_cases hpos : 0 < contourArea space
        · rw [if_pos hpos] at h'
          subst h'
          exact ⟨div_nonneg ha0 (le_of_lt hpos), (div_le_one hpos).mpr ha1⟩
        · rw [if_neg hpos] at h'
          subst h'
          norm_num

lemma ratioOf_of_area_zero (h0 : contourArea space = 0) (det : Detection) (r : ℚ)
    (h : ratioOf inter space tracked_objects universal_detection det = some r) :
    r = 0 := by
  unfold ratioOf at h
  split at h
  · exact absurd h (by simp)
  · cases hin : inter space det with
    | none => rw [hin] at h; exact absurd h (by simp)
    | some a =>
        rw [hin] at h
        simp only [Option.map_some'] at h
        have h' := Option.some.inj h
        rw [if_neg (by rw [h0]; exact lt_irrefl 0)] at h'
        exact h'.symm

lemma ratioOf_of_inter_none (det : Detection) (h : inter space det = none) :
    ratioOf inter space tracked_objects universal_detection det = none := by
  unfold ratioOf
  split
  · rfl
  · rw [h]; rfl

lemma ratioOf_of_full (det : Detection)
    (hel : universal_detection = true ∨ det.cls ∈ tracked_objects)
    (hin : inter space det = some (contourArea space))
    (hpos : 0 < contourArea space) :
    ratioOf inter space tracked_objects universal_detection det = some 1 := by
  unfold ratioOf
  rw [if_neg (by push_neg; intro hu; exact hel.resolve_left hu)]
  rw [hin]
  simp only [Option.map_some']
  rw [if_pos hpos, div_self (ne_of_gt hpos)]

/-- C7: across all current detection boxes (filtered to the tracked class
set when universal detection is off, all of which is folded into
`ratioOf`), the evaluator keeps the box with the strictly largest overlap
ratio; the comparison is strict, so on an exact tie the first-encountered
box in detection order is kept, and the per-slot result is that box's
ratio and class.  Part 1: if `d` has ratio `r > 0`, every earlier box has
a strictly smaller ratio and every later box a ratio at most `r`, the
result is exactly `(r, some d.cls)`.  Part 2: the resulting ratio is an
upper bound of every eligible box's ratio. -/
theorem c7_best_match_selection :
    (∀ (l1 : List Detection) (d : Detection) (l2 : List Detection) (r : ℚ),
      ratioOf inter space tracked_objects universal_detection d = some r →
      0 < r →
      (∀ d' ∈ l1, ∀ r',
        ratioOf inter space tracked_objects universal_detection d' = some r' → r' < r) →
      (∀ d' ∈ l2, ∀ r',
        ratioOf inter space tracked_objects universal_detection d' = some r' → r' ≤ r) →
      best_overlap inter space (l1 ++ d :: l2) tracked_objects universal_detection =
        (r, some d.cls)) ∧
    (∀ (detections : List Detection) (d : Detection) (r : ℚ),
      d ∈ detections →
      ratioOf inter space tracked_objects universal_detection d = some r →
      r ≤ (best_overlap inter space detections tracked_objects universal_detection).1) := by
  constructor
  · intro l1 d l2 r hd hr hl1 hl2
    unfold best_overlap
    rw [List.foldl_append, List.foldl_cons]
    have hacc1 : (l1.foldl (bestStep inter space tracked_objects universal_detection)
        ((0 : ℚ), (none : Option ℤ))).1 < r :=
      foldl_bestStep_lt inter space tracked_objects universal_detection r l1 (0, none) hr hl1
    have hstep : bestStep inter space tracked_objects universal_detection
        (l1.foldl (bestStep inter space tracked_objects universal_detection) (0, none)) d =
        (r, some d.cls) := by
      simp only [bestStep, hd]
      rw [if_pos hacc1]
    rw [hstep]
    exact foldl_bestStep_const inter space tracked_objects universal_detection l2
      (r, some d.cls) (fun d' hd' r' h' => hl2 d' hd' r' h')
  · intro detections d r hd hr
    exact ratio_le_foldl_bestStep inter space tracked_objects universal_detection
      detections (0, none) d r hd hr

/-- C4: with an intersection oracle whose successful results are true
intersection areas (nonnegative and at most the polygon area), the best
overlap ratio is in `[0, 1]`; it is `0` (with no best class) when the
polygon area is `0` or when every intersection fails; an eligible box
whose intersection is the full polygon area (full containment) forces
ratio `1`; and a box whose intersection fails is skipped, the evaluation
continuing over the remaining boxes exactly as if the box were absent.
The evaluator is a total function, so no input makes it fail. -/
theorem c4_overlap_ratio_bounds (detections : List Detection)
    (hinter : ∀ det a, inter space det = some a → 0 ≤ a ∧ a ≤ contourArea space) :
    (0 ≤ (best_overlap inter space detections tracked_objects universal_detection).1 ∧
     (best_overlap inter space detections tracked_objects universal_detection).1 ≤ 1) ∧
    (contourArea space = 0 →
      best_overlap inter space detections tracked_objects universal_detection = (0, none)) ∧
    ((∀ d ∈ detections, inter space d = none) →
      best_overlap inter space detections tracked_objects universal_detection = (0, none)) ∧
    (∀ d ∈ detections, (universal_detection = true ∨ d.cls ∈ tracked_objects) →
      inter space d = some (contourArea space) → 0 < contourArea space →
      (best_overlap inter space detections tracked_objects universal_detection).1 = 1) ∧
    (∀ (l1 l2 : List Detection) (d : Detection), inter space d = none →
      best_overlap inter space (l1 ++ d :: l2) tracked_objects universal_detection =
      best_overlap inter space (l1 ++ l2) tracked_objects universal_detection) := by
  refine ⟨⟨?_, ?_⟩, ?_, ?_, ?_, ?_⟩
  · exact foldl_bestStep_fst_le inter space tracked_objects universal_detection detections
      (0, none)
  · exact foldl_bestStep_le inter space tracked_objects universal_detection 1 detections
      (0, none) (by norm_num)
      (fun d _ r h =>
        (ratioOf_bounds inter space tracked_objects universal_detection hinter d r h).2)
  · intro h0
    exact foldl_bestStep_const inter space tracked_objects universal_detection detections
      (0, none)
      (fun d _ r h =>
        le_of_eq (ratioOf_of_area_zero inter space tracked_objects universal_detection h0 d r h))
  · intro hall
    exact foldl_bestStep_const inter space tracked_objects universal_detection detections
      (0, none)
      (fun d hd r h => by
        rw [ratioOf_of_inter_none inter space tracked_objects universal_detection d (hall d hd)]
          at h
        exact absurd h (by simp))
  · intro d hd hel hin hpos
    refine le_antisymm ?_ ?_
    · exact foldl_bestStep_le inter space tracked_objects universal_detection 1 detections
        (0, none) (by norm_num)
        (fun d' _ r h =>
          (ratioOf_bounds inter space tracked_objects universal_detection hinter d' r h).2)
    · exact ratio_le_foldl_bestStep inter space tracked_objects universal_detection detections
        (0, none) d 1 hd
        (ratioOf_of_full inter space tracked_objects universal_detection d hel hin hpos)
  · intro l1 l2 d hin
    unfold best_overlap
    rw [List.foldl_append, List.foldl_cons, List.foldl_append]
    have hstep : ∀ acc, bestStep inter space tracked_objects universal_detection acc d = acc := by
      intro acc
      simp [bestStep, ratioOf_of_inter_none inter space tracked_objects universal_detection d hin]
    rw [hstep]

end BestOverlapLemmas


lemma runSlot_snd_cons (P : Params) (trk : SlotTracking) (f : Frame) (rest : List Frame) :
    (runSlot P trk (f :: rest)).2 =
    (runSlot P (checkSpace P trk f.ratio f.cls f.time).2 rest).2 := rfl

lemma occ_accrue_run :
    ∀ (frames : List Frame) (P : Params) (trk : SlotTracking) (s t0 : ℚ),
    trk.occupied_time_tracking = some { start_time := s, total_time := s - t0 } →
    (∀ f ∈ frames, P.threshold ≤ f.ratio) →
    (runSlot P trk frames).2.occupied_time_tracking =
      some { start_time := (frames.map Frame.time).getLastD s
             total_time := (frames.map Frame.time).getLastD s - t0 } := by
  intro frames
  induction frames with
  | nil => intro P trk s t0 h _; simpa [runSlot] using h
  | cons f rest ih =>
      intro P trk s t0 h hf
      have hr : P.threshold ≤ f.ratio := hf f (List.mem_cons_self f rest)
      have harith : (s - t0) + (f.time - s) = f.time - t0 := by ring
      have hstep : (checkSpace P trk f.ratio f.cls f.time).2.occupied_time_tracking =
          some { start_time := f.time, total_time := f.time - t0 } := by
        simp only [checkSpace, if_pos hr, h, accrueTime, harith]
      rw [runSlot_snd_cons, List.map_cons, List.getLastD_cons]
      exact ih P _ f.time t0 hstep (fun g hg => hf g (List.mem_cons_of_mem f hg))

lemma free_accrue_run :
    ∀ (frames : List Frame) (P : Params) (trk : SlotTracking) (s t0 : ℚ),
    trk.free_time_tracking = some { start_time := s, total_time := s - t0 } →
    (∀ f ∈ frames, f.ratio < P.uncertainty_threshold ∧ f.ratio < P.threshold) →
    (runSlot P trk frames).2.free_time_tracking =
      some { start_time := (frames.map Frame.time).getLastD s
             total_time := (frames.map Frame.time).getLastD s - t0 } := by
  intro frames
  induction frames with
  | nil => intro P trk s t0 h _; simpa [runSlot] using h
  | cons f rest ih =>
      intro P trk s t0 h hf
      obtain ⟨hr1, hr2⟩ := hf f (List.mem_cons_self f rest)
      have harith : (s - t0) + (f.time - s) = f.time - t0 := by ring
      have hstep : (checkSpace P trk f.ratio f.cls f.time).2.free_time_tracking =
          some { start_time := f.time, total_time := f.time - t0 } := by
        simp only [checkSpace, if_neg (not_le.mpr hr2), if_neg (not_le.mpr hr1), h,
          accrueTime, harith]
      rw [runSlot_snd_cons, List.map_cons, List.getLastD_cons]
      exact ih P _ f.time t0 hstep (fun g hg => hf g (List.mem_cons_of_mem f hg))

lemma getLastD_le_of_append (d : ℚ) (l1 l2 : List ℚ)
    (h : (d :: (l1 ++ l2)).Pairwise (· ≤ ·)) :
    l1.getLastD d ≤ (l1 ++ l2).getLastD d := by
  cases l2 with
  | nil => simp
  | cons b m =>
      have hmem1 : l1.getLastD d ∈ d :: l1 := List.getLastD_mem_cons l1 d
      have hlast : (l1 ++ b :: m).getLastD d = (b :: m).getLast (List.cons_ne_nil b m) := by
        rw [List.getLastD_eq_getLast?, List.getLast?_append_of_ne_nil l1 (List.cons_ne_nil b m),
          List.getLast?_eq_getLast (b :: m) (List.cons_ne_nil b m)]
        rfl
      have hmem2 : (b :: m).getLast (List.cons_ne_nil b m) ∈ b :: m := List.getLast_mem _
      have h' : ((d :: l1) ++ (b :: m)).Pairwise (· ≤ ·) := by
        rw [List.cons_append]; exact h
      have hcross := (List.pairwise_append.mp h').2.2
      rw [hlast]
      exact hcross _ hmem1 _ hmem2

/-- Witness for `c7_best_match_selection`: a single box overlapping the
square `sqA` (area 100) on area 50 is selected with ratio `1/2` and its
class. -/
theorem c7_witness : best_overlap interW sqA [detW] [] true = (1/2, some 5) :=
  (c7_best_match_selection interW sqA [] true).1 [] detW [] (1/2)
    (by norm_num [ratioOf, interW, contourArea, polygonEdges, sqA])
    (by norm_num) (by simp) (by simp)

/-- Witness for `c4_overlap_ratio_bounds`: the oracle returning area 50
on the square `sqA` satisfies the intersection contract, and the
resulting best ratio lies in `[0, 1]`. -/
theorem c4_witness :
    0 ≤ (best_overlap interW sqA [detW] [] true).1 ∧
    (best_overlap interW sqA [detW] [] true).1 ≤ 1 :=
  (c4_overlap_ratio_bounds interW sqA [] true [detW]
    (fun det a h => by
      simp only [interW, Option.some.injEq] at h
      subst h
      norm_num [contourArea, polygonEdges, sqA])).1

/-- C1: in the uncertainty band
(`uncertaintyThreshold ≤ ratio < occupancyThreshold`), the flicker filter
is evaluated first with this frame's timestamp and a true result
overrides the classification to `frequent_detection`; with no existing
overlap record one is opened with `entryTime = now` and the slot is
classified `uncertain`; with an existing record its `last_area` and
`object_class` fields are updated and the slot is classified
`uncertain_occupied` exactly when `now - entryTime` has reached
`uncertainty_time_threshold`, and `uncertain` otherwise.  The ratio
sequence 0.1, 0.4, 0.4, 0.4, 0.4 at one-second intervals with
`uncertainty_time_threshold = 3` classifies as
free, uncertain, uncertain, uncertain, uncertain_occupied. -/
theorem c1_uncertainty_band :
    (∀ (P : Params) (trk : SlotTracking) (ratio : ℚ) (cls : Option ℤ) (now : ℚ),
      P.uncertainty_threshold ≤ ratio → ratio < P.threshold →
      (((check_frequent_detections trk.detection_history now
          P.frequent_detection_threshold P.frequent_detection_window).1 = true →
        (checkSpace P trk ratio cls now).1 = SpaceState.frequent_detection) ∧
      (trk.uncertainty_tracking = none →
        (checkSpace P trk ratio cls now).2.uncertainty_tracking =
          some { start_time := now, last_area := ratio, object_class := cls } ∧
        ((check_frequent_detections trk.detection_history now
            P.frequent_detection_threshold P.frequent_detection_window).1 = false →
          (checkSpace P trk ratio cls now).1 = SpaceState.uncertain)) ∧
      (∀ r, trk.uncertainty_tracking = some r →
        (checkSpace P trk ratio cls now).2.uncertainty_tracking =
          some { start_time := r.start_time, last_area := ratio, object_class := cls } ∧
        ((check_frequent_detections trk.detection_history now
            P.frequent_detection_threshold P.frequent_detection_window).1 = false →
          ((P.uncertainty_time_threshold ≤ now - r.start_time →
             (checkSpace P trk ratio cls now).1 = SpaceState.uncertain_occupied) ∧
           (now - r.start_time < P.uncertainty_time_threshold →
             (checkSpace P trk ratio cls now).1 = SpaceState.uncertain)))))) ∧
    (runSlot defaultParams emptyTracking c1Frames).1 =
      [SpaceState.free, SpaceState.uncertain, SpaceState.uncertain,
       SpaceState.uncertain, SpaceState.uncertain_occupied] := by
  constructor
  · intro P trk ratio cls now h1 h2
    have hocc : ¬ P.threshold ≤ ratio := not_le.mpr h2
    refine ⟨?_, ?_, ?_⟩
    · intro hfd
      simp [checkSpace, hocc, h1, hfd]
    · intro hnone
      constructor
      · simp [checkSpace, hocc, h1, hnone]
      · intro hfd
        simp [checkSpace, hocc, h1, hnone, hfd]
    · intro r hsome
      constructor
      · simp [checkSpace, hocc, h1, hsome]
      · intro hfd
        constructor
        · intro ht
          simp [checkSpace, hocc, h1, hsome, hfd, ht]
        · intro ht
          simp [checkSpace, hocc, h1, hsome, hfd, not_le.mpr ht]
  · norm_num [runSlot, checkSpace, check_frequent_detections, accrueTime, c1Frames,
      defaultParams, emptyTracking]

/-- Witness for `c1_uncertainty_band`: a concrete in-band frame with no
prior record opens the overlap record at the frame time and classifies
`uncertain`. -/
theorem c1_witness :
    (checkSpace defaultParams emptyTracking (4/10) (some 2) 7).2.uncertainty_tracking =
      some { start_time := 7, last_area := 4/10, object_class := some 2 } ∧
    (checkSpace defaultParams emptyTracking (4/10) (some 2) 7).1 = SpaceState.uncertain :=
  have h := (c1_uncertainty_band.1 defaultParams emptyTracking (4/10) (some 2) 7
    (by norm_num [defaultParams]) (by norm_num [defaultParams])).2.1 rfl
  ⟨h.1, h.2 (by norm_num [check_frequent_detections, emptyTracking, defaultParams])⟩

/-- C2: after one classification step of a slot, at most one of the three
tracking records survives, the surviving record is the one of the band
the slot was classified into, and the detection history is cleared when
the classification is `free` or `occupied`. -/
theorem c2_tracking_exclusive :
    ∀ (P : Params) (trk : SlotTracking) (ratio : ℚ) (cls : Option ℤ) (now : ℚ),
    (¬((checkSpace P trk ratio cls now).2.uncertainty_tracking.isSome = true ∧
       (checkSpace P trk ratio cls now).2.free_time_tracking.isSome = true)) ∧
    (¬((checkSpace P trk ratio cls now).2.uncertainty_tracking.isSome = true ∧
       (checkSpace P trk ratio cls now).2.occupied_time_tracking.isSome = true)) ∧
    (¬((checkSpace P trk ratio cls now).2.free_time_tracking.isSome = true ∧
       (checkSpace P trk ratio cls now).2.occupied_time_tracking.isSome = true)) ∧
    ((checkSpace P trk ratio cls now).1 = SpaceState.occupied →
      (checkSpace P trk ratio cls now).2.occupied_time_tracking.isSome = true ∧
      (checkSpace P trk ratio cls now).2.uncertainty_tracking = none ∧
      (checkSpace P trk ratio cls now).2.free_time_tracking = none ∧
      (checkSpace P trk ratio cls now).2.detection_history = none) ∧
    ((checkSpace P trk ratio cls now).1 = SpaceState.free →
      (checkSpace P trk ratio cls now).2.free_time_tracking.isSome = true ∧
      (checkSpace P trk ratio cls now).2.uncertainty_tracking = none ∧
      (checkSpace P trk ratio cls now).2.occupied_time_tracking = none ∧
      (checkSpace P trk ratio cls now).2.detection_history = none) ∧
    (((checkSpace P trk ratio cls now).1 = SpaceState.uncertain ∨
      (checkSpace P trk ratio cls now).1 = SpaceState.uncertain_occupied ∨
      (checkSpace P trk ratio cls now).1 = SpaceState.frequent_detection) →
      (checkSpace P trk ratio cls now).2.uncertainty_tracking.isSome = true ∧
      (checkSpace P trk ratio cls now).2.free_time_tracking = none ∧
      (checkSpace P trk ratio cls now).2.occupied_time_tracking = none) := by
  intro P trk ratio cls now
  by_cases h1 : P.threshold ≤ ratio
  · simp [checkSpace, h1]
  · by_cases h2 : P.uncertainty_threshold ≤ ratio
    · rcases h3 : trk.uncertainty_tracking with _ | r <;>
        by_cases hfd : (check_frequent_detections trk.detection_history now
          P.frequent_detection_threshold P.frequent_detection_window).1 <;>
        simp [checkSpace, h1, h2, h3, hfd] <;>
        (try split) <;> simp
    · simp [checkSpace, h1, h2]

/-- Witness for `c2_tracking_exclusive` at a concrete occupied frame. -/
theorem c2_witness :
    (¬((checkSpace defaultParams emptyTracking (7/10) (some 2) 1).2.uncertainty_tracking.isSome = true ∧
       (checkSpace defaultParams emptyTracking (7/10) (some 2) 1).2.free_time_tracking.isSome = true)) ∧
    (¬((checkSpace defaultParams emptyTracking (7/10) (some 2) 1).2.uncertainty_tracking.isSome = true ∧
       (checkSpace defaultParams emptyTracking (7/10) (some 2) 1).2.occupied_time_tracking.isSome = true)) ∧
    (¬((checkSpace defaultParams emptyTracking (7/10) (some 2) 1).2.free_time_tracking.isSome = true ∧
       (checkSpace defaultParams emptyTracking (7/10) (some 2) 1).2.occupied_time_tracking.isSome = true)) ∧
    ((checkSpace defaultParams emptyTracking (7/10) (some 2) 1).1 = SpaceState.occupied →
      (checkSpace defaultParams emptyTracking (7/10) (some 2) 1).2.occupied_time_tracking.isSome = true ∧
      (checkSpace defaultParams emptyTracking (7/10) (some 2) 1).2.uncertainty_tracking = none ∧
      (checkSpace defaultParams emptyTracking (7/10) (some 2) 1).2.free_time_tracking = none ∧
      (checkSpace defaultParams emptyTracking (7/10) (some 2) 1).2.detection_history = none) ∧
    ((checkSpace defaultParams emptyTracking (7/10) (some 2) 1).1 = SpaceState.free →
      (checkSpace defaultParams emptyTracking (7/10) (some 2) 1).2.free_time_tracking.isSome = true ∧
      (checkSpace defaultParams emptyTracking (7/10) (some 2) 1).2.uncertainty_tracking = none ∧
      (checkSpace defaultParams emptyTracking (7/10) (some 2) 1).2.occupied_time_tracking = none ∧
      (checkSpace defaultParams emptyTracking (7/10) (some 2) 1).2.detection_history = none) ∧
    (((checkSpace defaultParams emptyTracking (7/10) (some 2) 1).1 = SpaceState.uncertain ∨
      (checkSpace defaultParams emptyTracking (7/10) (some 2) 1).1 = SpaceState.uncertain_occupied ∨
      (checkSpace defaultParams emptyTracking (7/10) (some 2) 1).1 = SpaceState.frequent_detection) →
      (checkSpace defaultParams emptyTracking (7/10) (some 2) 1).2.uncertainty_tracking.isSome = true ∧
      (checkSpace defaultParams emptyTracking (7/10) (some 2) 1).2.free_time_tracking = none ∧
      (checkSpace defaultParams emptyTracking (7/10) (some 2) 1).2.occupied_time_tracking = none) :=
  c2_tracking_exclusive defaultParams emptyTracking (7/10) (some 2) 1

/-- Counterexample for C5 as stated: the claim says entries *older than*
`now - window` are discarded, but the source keeps only entries strictly
newer than the cutoff, so an entry exactly `window` old is also
discarded.  With history `[0]`, `now = 10`, `window = 10` and
`threshold = 2`, the entry `0` is not older than the cutoff `0`, so under
the claim's wording two entries remain and the filter must return true;
the source discards it and returns false. -/
theorem c5_counterexample :
    (check_frequent_detections (some [0]) 10 2 10).1 = false ∧
    (check_frequent_detections_claimed (some [0]) 10 2 10).1 = true := by
  norm_num [check_frequent_detections, check_frequent_detections_claimed]

/-- C5 (amended): `check_frequent_detections` appends `now` to the slot's
history, discards entries with timestamp at most `now - window` (keeping
only strictly newer ones), and returns true iff the remaining count
reaches the threshold; it is reached only for slots whose best ratio
falls in the uncertainty band — in the other two bands the history is
deleted instead — and a true result makes the frame's classification
`frequent_detection`.  Ten consecutive in-band frames at one-second
intervals with threshold 10 and window 10 make the tenth frame
`frequent_detection`. -/
theorem c5_flicker_filter :
    (∀ (history : Option (List ℚ)) (now : ℚ) (threshold : ℕ) (window : ℚ),
      (check_frequent_detections history now threshold window).2 =
        (history.getD [] ++ [now]).filter (fun t => now - window < t) ∧
      ((check_frequent_detections history now threshold window).1 = true ↔
        threshold ≤ ((history.getD [] ++ [now]).filter (fun t => now - window < t)).length)) ∧
    (∀ (P : Params) (trk : SlotTracking) (ratio : ℚ) (cls : Option ℤ) (now : ℚ),
      (ratio < P.uncertainty_threshold ∨ P.threshold ≤ ratio) →
      (checkSpace P trk ratio cls now).2.detection_history = none) ∧
    (∀ (P : Params) (trk : SlotTracking) (ratio : ℚ) (cls : Option ℤ) (now : ℚ),
      P.uncertainty_threshold ≤ ratio → ratio < P.threshold →
      (checkSpace P trk ratio cls now).2.detection_history =
        some (check_frequent_detections trk.detection_history now
          P.frequent_detection_threshold P.frequent_detection_window).2 ∧
      ((check_frequent_detections trk.detection_history now
          P.frequent_detection_threshold P.frequent_detection_window).1 = true →
        (checkSpace P trk ratio cls now).1 = SpaceState.frequent_detection)) ∧
    (runSlot defaultParams emptyTracking c5Frames).1 =
      [SpaceState.uncertain, SpaceState.uncertain, SpaceState.uncertain,
       SpaceState.uncertain_occupied, SpaceState.uncertain_occupied,
       SpaceState.uncertain_occupied, SpaceState.uncertain_occupied,
       SpaceState.uncertain_occupied, SpaceState.uncertain_occupied,
       SpaceState.frequent_detection] := by
  refine ⟨?_, ?_, ?_, ?_⟩
  · intro history now threshold window
    exact ⟨rfl, by simp [check_frequent_detections]⟩
  · intro P trk ratio cls now h
    by_cases h1 : P.threshold ≤ ratio
    · simp [checkSpace, h1]
    · have h2 : ¬ P.uncertainty_threshold ≤ ratio := by
        rcases h with h | h
        · exact not_le.mpr h
        · exact absurd h h1
      simp [checkSpace, h1, h2]
  · intro P trk ratio cls now h1 h2
    have hocc : ¬ P.threshold ≤ ratio := not_le.mpr h2
    constructor
    · simp [checkSpace, hocc, h1]
    · intro hfd
      simp [checkSpace, hocc, h1, hfd]
  · norm_num [runSlot, checkSpace, check_frequent_detections, accrueTime, c5Frames,
      defaultParams, emptyTracking]

/-- Witness for `c5_flicker_filter`: the filter at the counterexample
input returns the pruned history `[10]`, and history is cleared at a
concrete free frame. -/
theorem c5_witness :
    (check_frequent_detections (some [0]) 10 2 10).2 =
      ((some [0] : Option (List ℚ)).getD [] ++ [10]).filter (fun t => 10 - 10 < t) ∧
    (checkSpace defaultParams emptyTracking (1/10) none 3).2.detection_history = none :=
  ⟨(c5_flicker_filter.1 (some [0]) 10 2 10).1,
   c5_flicker_filter.2.1 defaultParams emptyTracking (1/10) none 3
     (Or.inl (by norm_num [defaultParams]))⟩

/-- C6: when a slot stays in the occupied band (resp. the free band)
over a run of frames starting from a record opened at `t0`, after each
frame `accumulatedDuration + (now - rangeStartTime) = now - t0`, the
total continuous time in that state; and along any two run prefixes the
accumulated duration is monotone when the frame times are in
nondecreasing order.  The first and third parts tie `t0` to the code's
record opening: an occupied (resp. free) frame with no record opens one
with `start = now` and `total = 0`. -/
theorem c6_duration_accrual :
    (∀ (P : Params) (trk : SlotTracking) (ratio : ℚ) (cls : Option ℤ) (t0 : ℚ),
      P.threshold ≤ ratio → trk.occupied_time_tracking = none →
      (checkSpace P trk ratio cls t0).2.occupied_time_tracking =
        some { start_time := t0, total_time := 0 }) ∧
    (∀ (P : Params) (trk : SlotTracking) (frames : List Frame) (t0 : ℚ),
      trk.occupied_time_tracking = some { start_time := t0, total_time := 0 } →
      (∀ f ∈ frames, P.threshold ≤ f.ratio) →
      ∃ rr, (runSlot P trk frames).2.occupied_time_tracking = some rr ∧
        (∀ now, rr.total_time + (now - rr.start_time) = now - t0) ∧
        (∀ p q, frames = p ++ q →
          (t0 :: frames.map Frame.time).Pairwise (· ≤ ·) →
          ∃ rp, (runSlot P trk p).2.occupied_time_tracking = some rp ∧
            rp.total_time ≤ rr.total_time)) ∧
    (∀ (P : Params) (trk : SlotTracking) (ratio : ℚ) (cls : Option ℤ) (t0 : ℚ),
      ratio < P.uncertainty_threshold → ratio < P.threshold →
      trk.free_time_tracking = none →
      (checkSpace P trk ratio cls t0).2.free_time_tracking =
        some { start_time := t0, total_time := 0 }) ∧
    (∀ (P : Params) (trk : SlotTracking) (frames : List Frame) (t0 : ℚ),
      trk.free_time_tracking = some { start_time := t0, total_time := 0 } →
      (∀ f ∈ frames, f.ratio < P.uncertainty_threshold ∧ f.ratio < P.threshold) →
      ∃ rr, (runSlot P trk frames).2.free_time_tracking = some rr ∧
        (∀ now, rr.total_time + (now - rr.start_time) = now - t0) ∧
        (∀ p q, frames = p ++ q →
          (t0 :: frames.map Frame.time).Pairwise (· ≤ ·) →
          ∃ rp, (runSlot P trk p).2.free_time_tracking = some rp ∧
            rp.total_time ≤ rr.total_time)) := by
  refine ⟨?_, ?_, ?_, ?_⟩
  · intro P trk ratio cls t0 hr h
    simp only [checkSpace, if_pos hr, h, accrueTime]
  · intro P trk frames t0 h hf
    have h0 : trk.occupied_time_tracking = some { start_time := t0, total_time := t0 - t0 } := by
      rw [h, sub_self]
    refine ⟨{ start_time := (frames.map Frame.time).getLastD t0
              total_time := (frames.map Frame.time).getLastD t0 - t0 },
      occ_accrue_run frames P trk t0 t0 h0 hf, fun now => by ring, ?_⟩
    intro p q hpq hpair
    refine ⟨{ start_time := (p.map Frame.time).getLastD t0
              total_time := (p.map Frame.time).getLastD t0 - t0 },
      occ_accrue_run p P trk t0 t0 h0
        (fun f hfm => hf f (hpq ▸ List.mem_append_left q hfm)), ?_⟩
    apply sub_le_sub_right
    subst hpq
    rw [List.map_append] at hpair ⊢
    exact getLastD_le_of_append t0 (p.map Frame.time) (q.map Frame.time) hpair
  · intro P trk ratio cls t0 hr1 hr2 h
    simp only [checkSpace, if_neg (not_le.mpr hr2), if_neg (not_le.mpr hr1), h, accrueTime]
  · intro P trk frames t0 h hf
    have h0 : trk.free_time_tracking = some { start_time := t0, total_time := t0 - t0 } := by
      rw [h, sub_self]
    refine ⟨{ start_time := (frames.map Frame.time).getLastD t0
              total_time := (frames.map Frame.time).getLastD t0 - t0 },
      free_accrue_run frames P trk t0 t0 h0 hf, fun now => by ring, ?_⟩
    intro p q hpq hpair
    refine ⟨{ start_time := (p.map Frame.time).getLastD t0
              total_time := (p.map Frame.time).getLastD t0 - t0 },
      free_accrue_run p P trk t0 t0 h0
        (fun f hfm => hf f (hpq ▸ List.mem_append_left q hfm)), ?_⟩
    apply sub_le_sub_right
    subst hpq
    rw [List.map_append] at hpair ⊢
    exact getLastD_le_of_append t0 (p.map Frame.time) (q.map Frame.time) hpair

/-- Witness for `c6_duration_accrual`: one occupied frame at time 1 on a
record opened at time 0. -/
theorem c6_witness :
    ∃ rr, (runSlot defaultParams trkOccW occFramesW).2.occupied_time_tracking = some rr ∧
      (∀ now, rr.total_time + (now - rr.start_time) = now - 0) ∧
      (∀ p q, occFramesW = p ++ q →
        ((0 : ℚ) :: occFramesW.map Frame.time).Pairwise (· ≤ ·) →
        ∃ rp, (runSlot defaultParams trkOccW p).2.occupied_time_tracking = some rp ∧
          rp.total_time ≤ rr.total_time) :=
  c6_duration_accrual.2.1 defaultParams trkOccW occFramesW 0 rfl
    (by norm_num [occFramesW, defaultParams])

/-- C8: in create (normal) mode a click appends one point to the pending
sequence while it holds fewer than 3 points; the 4th click appends
exactly one new slot, holding the 4 clicked points in click order, at the
end of the slot list and resets the pending sequence; hence a 5th click
starts a new pending sequence instead of growing the created slot. -/
theorem c8_create_mode :
    (∀ (s : MouseState) (p : ℚ × ℚ) (dets : List Detection),
      s.debug_mode = false → s.edit_mode = false → s.delete_mode = false →
      s.current_parking_space.length < 3 →
      draw_parking_space s p dets =
        { s with current_parking_space := s.current_parking_space ++ [p] }) ∧
    (∀ (s : MouseState) (p : ℚ × ℚ) (dets : List Detection),
      s.debug_mode = false → s.edit_mode = false → s.delete_mode = false →
      s.current_parking_space.length = 3 →
      draw_parking_space s p dets =
        { s with parking_spaces := s.parking_spaces ++ [s.current_parking_space ++ [p]]
                 current_parking_space := [] }) ∧
    (∀ (s : MouseState) (p1 p2 p3 p4 p5 : ℚ × ℚ),
      s.debug_mode = false → s.edit_mode = false → s.delete_mode = false →
      s.current_parking_space = [] →
      (clicks s [p1, p2, p3, p4, p5]).parking_spaces =
        s.parking_spaces ++ [[p1, p2, p3, p4]] ∧
      (clicks s [p1, p2, p3, p4, p5]).current_parking_space = [p5]) := by
  refine ⟨?_, ?_, ?_⟩
  · intro s p dets hd he hdel hlen
    have h4 : s.current_parking_space.length < 4 := by omega
    have hne : ¬ s.current_parking_space.length + 1 = 4 := by omega
    simp [draw_parking_space, hd, he, hdel, h4, hne]
  · intro s p dets hd he hdel hlen
    have h4 : s.current_parking_space.length < 4 := by omega
    have heq : s.current_parking_space.length + 1 = 4 := by omega
    simp [draw_parking_space, hd, he, hdel, h4, heq]
  · intro s p1 p2 p3 p4 p5 hd he hdel hcur
    constructor <;>
      simp [clicks, draw_parking_space, hd, he, hdel, hcur]

/-- Witness for `c8_create_mode`: five clicks on the one-square create
state append exactly one new 4-point slot and leave the 5th point
pending. -/
theorem c8_witness :
    (clicks msCreate [(100, 0), (110, 0), (110, 10), (100, 10), (200, 200)]).parking_spaces =
      msCreate.parking_spaces ++ [[(100, 0), (110, 0), (110, 10), (100, 10)]] ∧
    (clicks msCreate [(100, 0), (110, 0), (110, 10), (100, 10), (200, 200)]).current_parking_space =
      [(200, 200)] :=
  c8_create_mode.2.2 msCreate (100, 0) (110, 0) (110, 10) (100, 10) (200, 200)
    rfl rfl rfl rfl

/-- C9: in delete mode a click removes exactly the first slot in list
order whose polygon contains the click point; indices below the deleted
one are unchanged and indices at or above it shift down by one.
Deleting index 1 of the three-square list leaves the former slot 0 at
index 0 and the former slot 2 at index 1. -/
theorem c9_delete_mode :
    (∀ (s : MouseState) (p : ℚ × ℚ) (dets : List Detection) (i : ℕ),
      s.debug_mode = false → s.delete_mode = true →
      s.parking_spaces.findIdx? (spaceHit p) = some i →
      (draw_parking_space s p dets).parking_spaces = s.parking_spaces.eraseIdx i ∧
      (∀ k, k < i →
        (draw_parking_space s p dets).parking_spaces[k]? = s.parking_spaces[k]?) ∧
      (∀ k, i ≤ k →
        (draw_parking_space s p dets).parking_spaces[k]? = s.parking_spaces[k + 1]?)) ∧
    (draw_parking_space msDelete (25, 5) []).parking_spaces = [sqA, sqC] := by
  constructor
  · intro s p dets i hd hdel hfind
    have hmain : (draw_parking_space s p dets).parking_spaces = s.parking_spaces.eraseIdx i := by
      simp [draw_parking_space, hd, hdel, hfind]
    refine ⟨hmain, ?_, ?_⟩
    · intro k hk
      rw [hmain]
      exact List.getElem?_eraseIdx_of_lt s.parking_spaces i k hk
    · intro k hk
      rw [hmain]
      exact List.getElem?_eraseIdx_of_ge s.parking_spaces i k hk
  · norm_num [draw_parking_space, msDelete, spaceHit, point_in_polygon, pipStep,
      polygonEdges, sqA, sqB, sqC, List.findIdx?_cons]

/-- Witness for `c9_delete_mode`: the click at `(25, 5)` selects index 1
of the three-square list, and the deletion shifts the former index 2
slot down to index 1. -/
theorem c9_witness :
    (draw_parking_space msDelete (25, 5) []).parking_spaces =
      msDelete.parking_spaces.eraseIdx 1 ∧
    (∀ k, k < 1 →
      (draw_parking_space msDelete (25, 5) []).parking_spaces[k]? =
        msDelete.parking_spaces[k]?) ∧
    (∀ k, 1 ≤ k →
      (draw_parking_space msDelete (25, 5) []).parking_spaces[k]? =
        msDelete.parking_spaces[k + 1]?) :=
  c9_delete_mode.1 msDelete (25, 5) [] 1 rfl rfl
    (by norm_num [msDelete, spaceHit, point_in_polygon, pipStep, polygonEdges,
      sqA, sqB, List.findIdx?_cons])

/-- C10: a delete-mode click mutates only the slot list: the four
index-keyed tracking dictionaries (and the other editor fields) are left
entirely unchanged, while every slot index at or above the deleted one
now denotes the next slot — so the slot now at index `k` inherits the
records keyed to `k` for the previously different slot. -/
theorem c10_delete_frame_effect :
    ∀ (s : MouseState) (p : ℚ × ℚ) (dets : List Detection),
    s.debug_mode = false → s.delete_mode = true →
    (draw_parking_space s p dets).uncertainty_tracking = s.uncertainty_tracking ∧
    (draw_parking_space s p dets).free_time_tracking = s.free_time_tracking ∧
    (draw_parking_space s p dets).occupied_time_tracking = s.occupied_time_tracking ∧
    (draw_parking_space s p dets).detection_history = s.detection_history ∧
    (draw_parking_space s p dets).tracked_objects = s.tracked_objects ∧
    (draw_parking_space s p dets).current_parking_space = s.current_parking_space ∧
    (draw_parking_space s p dets).editing_space_index = s.editing_space_index ∧
    (∀ j k, s.parking_spaces.findIdx? (spaceHit p) = some j → j ≤ k →
      (draw_parking_space s p dets).parking_spaces[k]? = s.parking_spaces[k + 1]?) := by
  intro s p dets hd hdel
  cases hfind : s.parking_spaces.findIdx? (spaceHit p) with
  | none =>
      simp [draw_parking_space, hd, hdel, hfind]
  | some i =>
      have hform : draw_parking_space s p dets =
          { s with parking_spaces := s.parking_spaces.eraseIdx i } := by
        simp [draw_parking_space, hd, hdel, hfind]
      rw [hform]
      refine ⟨rfl, rfl, rfl, rfl, rfl, rfl, rfl, ?_⟩
      intro j k hj hk
      have hij : i = j := Option.some.inj hj
      subst hij
      exact List.getElem?_eraseIdx_of_ge s.parking_spaces i k hk

/-- Witness for `c10_delete_frame_effect` at the concrete three-square
delete state: the tracking association lists survive the deletion. -/
theorem c10_witness :
    (draw_parking_space msDelete (25, 5) []).uncertainty_tracking =
      msDelete.uncertainty_tracking ∧
    (draw_parking_space msDelete (25, 5) []).free_time_tracking =
      msDelete.free_time_tracking ∧
    (draw_parking_space msDelete (25, 5) []).occupied_time_tracking =
      msDelete.occupied_time_tracking ∧
    (draw_parking_space msDelete (25, 5) []).detection_history =
      msDelete.detection_history ∧
    (draw_parking_space msDelete (25, 5) []).tracked_objects =
      msDelete.tracked_objects ∧
    (draw_parking_space msDelete (25, 5) []).current_parking_space =
      msDelete.current_parking_space ∧
    (draw_parking_space msDelete (25, 5) []).editing_space_index =
      msDelete.editing_space_index ∧
    (∀ j k, msDelete.parking_spaces.findIdx? (spaceHit (25, 5)) = some j → j ≤ k →
      (draw_parking_space msDelete (25, 5) []).parking_spaces[k]? =
        msDelete.parking_spaces[k + 1]?) :=
  c10_delete_frame_effect msDelete (25, 5) [] rfl rfl

/-- C3, evaluated at the failing input: in edit mode the selection click
copies the selected slot's 4 points into the pending sequence, so the
pending sequence is already full; the next click at `(20, 20)` appends
nothing, rewrites the slot with its own original points and clears the
selection.  The claim's replacement-point accumulation never happens:
after the two clicks the slot still holds its original points and the
edit selection is gone. -/
theorem c3_edit_mode_bug :
    (draw_parking_space msEdit (5, 5) []).editing_space_index = some 0 ∧
    (draw_parking_space msEdit (5, 5) []).current_parking_space = sqA ∧
    (draw_parking_space (draw_parking_space msEdit (5, 5) []) (20, 20) []).parking_spaces =
      [sqA] ∧
    (draw_parking_space (draw_parking_space msEdit (5, 5) []) (20, 20) []).current_parking_space =
      [] ∧
    (draw_parking_space (draw_parking_space msEdit (5, 5) []) (20, 20) []).editing_space_index =
      none := by
  norm_num [draw_parking_space, msEdit, msDelete, spaceHit, point_in_polygon, pipStep,
    polygonEdges, sqA, List.findIdx?_cons]
